import Mathlib

/-!
# ABasePlayerCharacter

A shallow embedding of `Source/Game/Characters/BasePlayerCharacter.{h,cpp}`.

The class is an adapter between engine callbacks and engine subsystems, so the
embedding is a state-passing one: every member function is a function from
`World` to `World`, where a `World` holds the data members of the character,
the engine objects its pointers lead to, and the list of engine calls issued so
far (each with the value the engine returned).  Engine calls are the only
places where the engine objects change.

Conventions.
* A pointer that may be null is an `Option`.
* `TSoftObjectPtr::LoadSynchronous` is the field `LoadSynchronous`: `none` is a
  failed load (a null result).
* `UInputComponent*` is an address into `World.InputComponents`, so that the
  argument of `InitInputActionBindings` and the inherited member
  `InputComponent` can point to the same object.
* Binding handles and ability handles are identified with the `int32` value
  the class stores for them.
* `UE_LOG` has no effect on any modelled object and is left out.
* The scalar type `K` of vectors and rotators is a parameter; the trigonometric
  functions and the inverse square root of the engine are passed in `FMath`.
-/

namespace BasePlayerCharacter

/-! ## Engine data -/

/-- A loaded `UInputAction` asset. -/
structure UInputAction where
  Id : Nat
deriving DecidableEq, Repr

/-- A loaded `UInputMappingContext` asset. -/
structure UInputMappingContext where
  Id : Nat
deriving DecidableEq, Repr

/-- A loaded ability class, `TSubclassOf<UGameplayAbility>`, non-null. -/
structure TSubclassOf where
  Id : Nat
deriving DecidableEq, Repr

/-- Soft reference to an asset; `LoadSynchronous` is the outcome of loading it. -/
structure TSoftObjectPtr (α : Type) where
  LoadSynchronous : Option α
deriving DecidableEq, Repr

/-- Soft reference to a class. -/
abbrev TSoftClassPtr := TSoftObjectPtr

/-- Handle of a granted ability. -/
abbrev FGameplayAbilitySpecHandle := Int

/-- A granted ability inside the ability system component. -/
structure FGameplayAbilitySpec where
  Handle : FGameplayAbilitySpecHandle
  Ability : TSubclassOf
deriving DecidableEq, Repr

/-- The ability system component: the abilities it currently grants. -/
structure UAbilitySystemComponent where
  ActivatableAbilities : List FGameplayAbilitySpec
deriving DecidableEq, Repr

/-- `ETriggerEvent` of Enhanced Input. -/
inductive ETriggerEvent where
  | None
  | Triggered
  | Started
  | Ongoing
  | Canceled
  | Completed
deriving DecidableEq, Repr

/-- The member function a binding calls: the four this class binds, or a
function bound by someone else. -/
inductive BoundFunction where
  | Jump
  | StopJumping
  | Move
  | Look
  | Other (n : Nat)
deriving DecidableEq, Repr

/-- One action binding of an Enhanced Input component. -/
structure FEnhancedInputActionEventBinding where
  Handle : Int
  Action : UInputAction
  TriggerEvent : ETriggerEvent
  Func : BoundFunction
deriving DecidableEq, Repr

/-- An Enhanced Input component: its action bindings. -/
structure UEnhancedInputComponent where
  EnhancedActionEventBindings : List FEnhancedInputActionEventBinding
deriving DecidableEq, Repr

/-- An input component is either a legacy one or an Enhanced Input one. -/
inductive UInputComponent where
  | Legacy
  | Enhanced (c : UEnhancedInputComponent)
deriving DecidableEq, Repr

/-- The Enhanced Input local-player subsystem: the applied mapping contexts with
their priority (a `TMap`). -/
structure UEnhancedInputLocalPlayerSubsystem where
  AppliedInputContexts : UInputMappingContext → Option Int

/-- A local player; `EnhancedInputSubsystem` is what `ULocalPlayer::GetSubsystem`
finds for it. -/
structure ULocalPlayer where
  EnhancedInputSubsystem : Option UEnhancedInputLocalPlayerSubsystem

/-- The player-controller part of a controller. -/
structure APlayerController where
  LocalPlayer : Option ULocalPlayer

/-- `FVector`. -/
structure FVector (K : Type) where
  X : K
  Y : K
  Z : K
deriving DecidableEq, Repr

/-- `FVector2D`. -/
structure FVector2D (K : Type) where
  X : K
  Y : K
deriving DecidableEq, Repr

/-- `FRotator`, angles in degrees, constructor order (Pitch, Yaw, Roll). -/
structure FRotator (K : Type) where
  Pitch : K
  Yaw : K
  Roll : K
deriving DecidableEq, Repr

/-- `FInputActionValue`: the value of an input action, stored as a vector. -/
structure FInputActionValue (K : Type) where
  Value : FVector K
deriving DecidableEq, Repr

/-- A controller: its control rotation, and its player-controller part when it
is an `APlayerController` (what `Cast<APlayerController>` yields). -/
structure AController (K : Type) where
  ControlRotation : FRotator K
  AsPlayerController : Option APlayerController

/-- A call into the engine, with what the engine returned where the code uses
the result. -/
inductive EngineCall (K : Type) where
  | K2_GiveAbility (AbilityClass : TSubclassOf) (Returned : FGameplayAbilitySpecHandle)
  | ClearAbility (AbilityHandle : FGameplayAbilitySpecHandle)
  | AddMappingContext (MappingContext : UInputMappingContext) (Priority : Int)
  | RemoveMappingContext (MappingContext : UInputMappingContext)
  | BindAction (Component : Nat) (Action : UInputAction) (TriggerEvent : ETriggerEvent)
      (Func : BoundFunction) (Returned : Int)
  | RemoveBindingByHandle (Component : Nat) (Handle : Int)
  | AddMovementInput (WorldDirection : FVector K) (ScaleValue : K)
  | AddControllerYawInput (Val : K)
  | AddControllerPitchInput (Val : K)
deriving DecidableEq, Repr

/-- The mathematical functions of the engine over the scalar type. -/
structure FMath (K : Type) where
  PI : K
  Sin : K → K
  Cos : K → K
  InvSqrt : K → K

/-- How the engine picks handles: for a new ability from the abilities granted
so far, for a new binding from the bindings present so far. -/
structure HandleSource where
  NewAbilityHandle : List FGameplayAbilitySpec → FGameplayAbilitySpecHandle
  NewBindingHandle : List FEnhancedInputActionEventBinding → Int

/-! ## The character -/

/-- The data members `ABasePlayerCharacter` declares (the camera subobjects,
which no member function other than the constructor touches, are left out). -/
structure ABasePlayerCharacter where
  DefaultMappingContext : TSoftObjectPtr UInputMappingContext
  JumpAction : TSoftObjectPtr UInputAction
  MoveAction : TSoftObjectPtr UInputAction
  LookAction : TSoftObjectPtr UInputAction
  DefaultAbilities : List (TSoftClassPtr TSubclassOf)
  GivenDefaultAbilities : List FGameplayAbilitySpecHandle
  JumpActionBindingHandle_Started : Int := -1
  JumpActionBindingHandle_Completed : Int := -1
  MoveActionBindingHandle : Int := -1
  LookActionBindingHandle : Int := -1
deriving DecidableEq, Repr

/-- The character together with the engine state its member functions reach. -/
structure World (K : Type) where
  /-- The members declared by the class. -/
  Self : ABasePlayerCharacter
  /-- Result of `HasAuthority()`. -/
  HasAuthority : Bool
  /-- The object behind the member `AbilitySystemComponent`. -/
  AbilitySystemComponent : UAbilitySystemComponent
  /-- The inherited member `Controller` and the object behind it. -/
  Controller : Option (AController K)
  /-- The inherited member `InputComponent`, an address or null. -/
  InputComponent : Option Nat
  /-- The input components, by address. -/
  InputComponents : Nat → UInputComponent
  /-- The engine calls issued so far, oldest first. -/
  Calls : List (EngineCall K)

variable {K : Type}

/-! ## Engine operations -/

/-- `UAbilitySystemComponent::K2_GiveAbility`: grants the class under a handle
picked by the engine and returns that handle. -/
def K2_GiveAbility (hs : HandleSource) (w : World K) (AbilityClass : TSubclassOf) :
    World K × FGameplayAbilitySpecHandle :=
  let h := hs.NewAbilityHandle w.AbilitySystemComponent.ActivatableAbilities
  ({ w with
      AbilitySystemComponent :=
        ⟨w.AbilitySystemComponent.ActivatableAbilities ++ [⟨h, AbilityClass⟩]⟩
      Calls := w.Calls ++ [EngineCall.K2_GiveAbility AbilityClass h] }, h)

/-- `UAbilitySystemComponent::ClearAbility`: removes the ability with that handle,
if there is one. -/
def ClearAbility (w : World K) (AbilityHandle : FGameplayAbilitySpecHandle) : World K :=
  { w with
      AbilitySystemComponent :=
        ⟨w.AbilitySystemComponent.ActivatableAbilities.eraseP
          (fun s => s.Handle == AbilityHandle)⟩
      Calls := w.Calls ++ [EngineCall.ClearAbility AbilityHandle] }

/-- `Cast<UEnhancedInputComponent>`: the address and the component when the
pointer is non-null and the object is an Enhanced Input component. -/
def Cast_UEnhancedInputComponent (w : World K) (p : Option Nat) :
    Option (Nat × UEnhancedInputComponent) :=
  match p with
  | none => none
  | some a =>
    match w.InputComponents a with
    | UInputComponent.Enhanced c => some (a, c)
    | UInputComponent.Legacy => none

/-- `UEnhancedInputComponent::BindAction(...).GetHandle()` on the component at
address `a`: adds the binding under a handle picked by the engine and returns
that handle.  On a legacy component nothing is bound. -/
def BindAction (hs : HandleSource) (w : World K) (a : Nat) (Action : UInputAction)
    (TriggerEvent : ETriggerEvent) (Func : BoundFunction) : World K × Int :=
  match w.InputComponents a with
  | UInputComponent.Enhanced c =>
    let h := hs.NewBindingHandle c.EnhancedActionEventBindings
    ({ w with
        InputComponents := Function.update w.InputComponents a
          (UInputComponent.Enhanced
            ⟨c.EnhancedActionEventBindings ++ [⟨h, Action, TriggerEvent, Func⟩]⟩)
        Calls := w.Calls ++ [EngineCall.BindAction a Action TriggerEvent Func h] }, h)
  | UInputComponent.Legacy => (w, -1)

/-- `UEnhancedInputComponent::RemoveBindingByHandle` on the component at address
`a`: removes the binding with that handle, if there is one. -/
def RemoveBindingByHandle (w : World K) (a : Nat) (Handle : Int) : World K :=
  match w.InputComponents a with
  | UInputComponent.Enhanced c =>
    { w with
        InputComponents := Function.update w.InputComponents a
          (UInputComponent.Enhanced
            ⟨c.EnhancedActionEventBindings.eraseP (fun b => b.Handle == Handle)⟩)
        Calls := w.Calls ++ [EngineCall.RemoveBindingByHandle a Handle] }
  | UInputComponent.Legacy => w

/-- `Cast<APlayerController>(Controller)`. -/
def Cast_APlayerController (Controller : Option (AController K)) : Option APlayerController :=
  match Controller with
  | none => none
  | some c => c.AsPlayerController

/-- `ULocalPlayer::GetSubsystem<UEnhancedInputLocalPlayerSubsystem>`: null for a
null local player. -/
def GetSubsystem (LocalPlayer : Option ULocalPlayer) :
    Option UEnhancedInputLocalPlayerSubsystem :=
  match LocalPlayer with
  | none => none
  | some lp => lp.EnhancedInputSubsystem

/-- Writes a changed subsystem back behind `Controller -> LocalPlayer`. -/
def setSubsystem (w : World K) (s : UEnhancedInputLocalPlayerSubsystem) : World K :=
  { w with
      Controller := w.Controller.map fun c =>
        { c with
            AsPlayerController := c.AsPlayerController.map fun pc =>
              { pc with
                  LocalPlayer := pc.LocalPlayer.map fun lp =>
                    { lp with EnhancedInputSubsystem := some s } } } }

/-- `AddMappingContext` on the subsystem of the controller: the context is
applied with the given priority. -/
def AddMappingContext (w : World K) (s : UEnhancedInputLocalPlayerSubsystem)
    (MappingContext : UInputMappingContext) (Priority : Int) : World K :=
  { setSubsystem w ⟨Function.update s.AppliedInputContexts MappingContext (some Priority)⟩ with
      Calls := w.Calls ++ [EngineCall.AddMappingContext MappingContext Priority] }

/-- `RemoveMappingContext` on the subsystem of the controller: the context is
no longer applied. -/
def RemoveMappingContext (w : World K) (s : UEnhancedInputLocalPlayerSubsystem)
    (MappingContext : UInputMappingContext) : World K :=
  { setSubsystem w ⟨Function.update s.AppliedInputContexts MappingContext none⟩ with
      Calls := w.Calls ++ [EngineCall.RemoveMappingContext MappingContext] }

/-- `APawn::AddMovementInput(WorldDirection, ScaleValue)`. -/
def AddMovementInput (w : World K) (WorldDirection : FVector K) (ScaleValue : K) : World K :=
  { w with Calls := w.Calls ++ [EngineCall.AddMovementInput WorldDirection ScaleValue] }

/-- `APawn::AddControllerYawInput`. -/
def AddControllerYawInput (w : World K) (Val : K) : World K :=
  { w with Calls := w.Calls ++ [EngineCall.AddControllerYawInput Val] }

/-- `APawn::AddControllerPitchInput`. -/
def AddControllerPitchInput (w : World K) (Val : K) : World K :=
  { w with Calls := w.Calls ++ [EngineCall.AddControllerPitchInput Val] }

/-- `FInputActionValue::Get<FVector2D>`. -/
def FInputActionValue.Get_FVector2D (v : FInputActionValue K) : FVector2D K :=
  ⟨v.Value.X, v.Value.Y⟩

/-- `EAxis`. -/
inductive EAxis where
  | X
  | Y
  | Z
deriving DecidableEq, Repr

/-- The rotation part of `FRotationMatrix`, by rows (the X, Y and Z axes). -/
structure FRotationMatrix (K : Type) where
  Row0 : FVector K
  Row1 : FVector K
  Row2 : FVector K
deriving DecidableEq, Repr

/-- `FMath::DegreesToRadians`. -/
def FMath.DegreesToRadians [Field K] (m : FMath K) (d : K) : K :=
  d * (m.PI / 180)

/-- The constructor `FRotationMatrix(Rot)`. -/
def FRotationMatrix.make [Field K] (m : FMath K) (Rot : FRotator K) : FRotationMatrix K :=
  let SP := m.Sin (m.DegreesToRadians Rot.Pitch)
  let CP := m.Cos (m.DegreesToRadians Rot.Pitch)
  let SY := m.Sin (m.DegreesToRadians Rot.Yaw)
  let CY := m.Cos (m.DegreesToRadians Rot.Yaw)
  let SR := m.Sin (m.DegreesToRadians Rot.Roll)
  let CR := m.Cos (m.DegreesToRadians Rot.Roll)
  { Row0 := ⟨CP * CY, CP * SY, SP⟩
    Row1 := ⟨SR * SP * CY - CR * SY, SR * SP * SY + CR * CY, -SR * CP⟩
    Row2 := ⟨-(CR * SP * CY + SR * SY), CY * SR - CR * SP * SY, CR * CP⟩ }

/-- `FVector::GetSafeNormal` with the default tolerance `SMALL_NUMBER`. -/
def FVector.GetSafeNormal [LinearOrderedField K] (m : FMath K) (v : FVector K) : FVector K :=
  let SquareSum := v.X * v.X + v.Y * v.Y + v.Z * v.Z
  if SquareSum = 1 then v
  else if SquareSum < 1 / 100000000 then ⟨0, 0, 0⟩
  else
    let Scale := m.InvSqrt SquareSum
    ⟨v.X * Scale, v.Y * Scale, v.Z * Scale⟩

/-- `FMatrix::GetScaledAxis`. -/
def FRotationMatrix.GetScaledAxis (M : FRotationMatrix K) (Axis : EAxis) : FVector K :=
  match Axis with
  | EAxis.X => M.Row0
  | EAxis.Y => M.Row1
  | EAxis.Z => M.Row2

/-- `FMatrix::GetUnitAxis`. -/
def FRotationMatrix.GetUnitAxis [LinearOrderedField K] (m : FMath K) (M : FRotationMatrix K)
    (Axis : EAxis) : FVector K :=
  (M.GetScaledAxis Axis).GetSafeNormal m

/-! ## Member functions of `ABasePlayerCharacter` -/

/-- The body of the loop of `InitDefaultAbilities`, for one entry of
`DefaultAbilities`. -/
def giveDefaultAbility (hs : HandleSource) (w : World K)
    (AbilityToGive : TSoftClassPtr TSubclassOf) : World K :=
  match AbilityToGive.LoadSynchronous with
  | some LoadedAbilityToGive =>
    let r := K2_GiveAbility hs w LoadedAbilityToGive
    { r.1 with
        Self := { r.1.Self with
          GivenDefaultAbilities := r.1.Self.GivenDefaultAbilities ++ [r.2] } }
  | none => w

/-- `ABasePlayerCharacter::InitDefaultAbilities`. -/
def InitDefaultAbilities (hs : HandleSource) (w : World K) : World K :=
  if !w.HasAuthority then w
  else if w.Self.DefaultAbilities.isEmpty then w
  else w.Self.DefaultAbilities.foldl (giveDefaultAbility hs) w

/-- `ABasePlayerCharacter::DeinitDefaultAbilities`. -/
def DeinitDefaultAbilities (w : World K) : World K :=
  if !w.HasAuthority then w
  else if w.Self.DefaultAbilities.isEmpty then w
  else
    w.Self.GivenDefaultAbilities.foldl (fun w AbilityToClear => ClearAbility w AbilityToClear) w

/-- `ABasePlayerCharacter::InitMappingContext`. -/
def InitMappingContext (w : World K) : World K :=
  match Cast_APlayerController w.Controller with
  | none => w
  | some PlayerController =>
    match GetSubsystem PlayerController.LocalPlayer with
    | none => w
    | some Subsystem =>
      match w.Self.DefaultMappingContext.LoadSynchronous with
      | some DefaultLoadedMappingContext =>
        AddMappingContext w Subsystem DefaultLoadedMappingContext 0
      | none => w

/-- `ABasePlayerCharacter::DeinitMappingContext`. -/
def DeinitMappingContext (w : World K) : World K :=
  match Cast_APlayerController w.Controller with
  | none => w
  | some PlayerController =>
    match GetSubsystem PlayerController.LocalPlayer with
    | none => w
    | some Subsystem =>
      match w.Self.DefaultMappingContext.LoadSynchronous with
      | some DefaultLoadedMappingContext =>
        RemoveMappingContext w Subsystem DefaultLoadedMappingContext
      | none => w

/-- The `JumpAction` block of `InitInputActionBindings`. -/
def bindJump (hs : HandleSource) (w : World K) (a : Nat) : World K :=
  match w.Self.JumpAction.LoadSynchronous with
  | some LoadedJumpAction =>
    let r1 := BindAction hs w a LoadedJumpAction ETriggerEvent.Started BoundFunction.Jump
    let w1 := { r1.1 with Self := { r1.1.Self with JumpActionBindingHandle_Started := r1.2 } }
    let r2 := BindAction hs w1 a LoadedJumpAction ETriggerEvent.Completed
      BoundFunction.StopJumping
    { r2.1 with Self := { r2.1.Self with JumpActionBindingHandle_Completed := r2.2 } }
  | none => w

/-- The `MoveAction` block of `InitInputActionBindings`. -/
def bindMove (hs : HandleSource) (w : World K) (a : Nat) : World K :=
  match w.Self.MoveAction.LoadSynchronous with
  | some LoadedMoveAction =>
    let r := BindAction hs w a LoadedMoveAction ETriggerEvent.Triggered BoundFunction.Move
    { r.1 with Self := { r.1.Self with MoveActionBindingHandle := r.2 } }
  | none => w

/-- The `LookAction` block of `InitInputActionBindings`. -/
def bindLook (hs : HandleSource) (w : World K) (a : Nat) : World K :=
  match w.Self.LookAction.LoadSynchronous with
  | some LoadedLookAction =>
    let r := BindAction hs w a LoadedLookAction ETriggerEvent.Triggered BoundFunction.Look
    { r.1 with Self := { r.1.Self with LookActionBindingHandle := r.2 } }
  | none => w

/-- `ABasePlayerCharacter::InitInputActionBindings`. -/
def InitInputActionBindings (hs : HandleSource) (w : World K)
    (PlayerInputComponent : Option Nat) : World K :=
  match Cast_UEnhancedInputComponent w PlayerInputComponent with
  | none => w
  | some (EnhancedInputComponent, _) =>
    bindLook hs (bindMove hs (bindJump hs w EnhancedInputComponent) EnhancedInputComponent)
      EnhancedInputComponent

/-- `ABasePlayerCharacter::DeInitInputActionBindings`. -/
def DeInitInputActionBindings (w : World K) : World K :=
  match w.InputComponent with
  | none => w
  | some _ =>
    match Cast_UEnhancedInputComponent w w.InputComponent with
    | none => w
    | some (EnhancedInputComponent, _) =>
      let w1 := RemoveBindingByHandle w EnhancedInputComponent
        w.Self.JumpActionBindingHandle_Started
      let w2 := RemoveBindingByHandle w1 EnhancedInputComponent
        w1.Self.JumpActionBindingHandle_Completed
      let w3 := RemoveBindingByHandle w2 EnhancedInputComponent w2.Self.MoveActionBindingHandle
      RemoveBindingByHandle w3 EnhancedInputComponent w3.Self.LookActionBindingHandle

/-- `ABasePlayerCharacter::Move`. -/
def Move [LinearOrderedField K] (m : FMath K) (w : World K) (Value : FInputActionValue K) :
    World K :=
  match w.Controller with
  | none => w
  | some Controller =>
    let MovementVector := Value.Get_FVector2D
    let Rotation := Controller.ControlRotation
    let YawRotation : FRotator K := ⟨0, Rotation.Yaw, 0⟩
    let ForwardDirection := (FRotationMatrix.make m YawRotation).GetUnitAxis m EAxis.X
    let RightDirection := (FRotationMatrix.make m YawRotation).GetUnitAxis m EAxis.Y
    AddMovementInput (AddMovementInput w ForwardDirection MovementVector.Y)
      RightDirection MovementVector.X

/-- `ABasePlayerCharacter::Look`. -/
def Look (w : World K) (Value : FInputActionValue K) : World K :=
  match w.Controller with
  | none => w
  | some _ =>
    let LookAxisVector := Value.Get_FVector2D
    AddControllerPitchInput (AddControllerYawInput w LookAxisVector.X) LookAxisVector.Y

/-- `ABasePlayerCharacter::BeginPlay` (the base-class part changes none of the
modelled state). -/
def BeginPlay (hs : HandleSource) (w : World K) : World K :=
  InitDefaultAbilities hs w

/-- `ABasePlayerCharacter::EndPlay` (the base-class part changes none of the
modelled state). -/
def EndPlay (w : World K) : World K :=
  DeinitMappingContext (DeInitInputActionBindings (DeinitDefaultAbilities w))

/-- `ABasePlayerCharacter::NotifyControllerChanged`. -/
def NotifyControllerChanged (w : World K) : World K :=
  InitMappingContext w

/-- `ABasePlayerCharacter::SetupPlayerInputComponent`. -/
def SetupPlayerInputComponent (hs : HandleSource) (w : World K)
    (PlayerInputComponent : Option Nat) : World K :=
  match PlayerInputComponent with
  | none => w
  | some a => InitInputActionBindings hs w (some a)

/-! ## Auxiliary definitions for the statements -/

/-- The handles `K2_GiveAbility` returns when the classes are given one after
the other to a component that grants `specs`. -/
def returnedHandles (hs : HandleSource) :
    List FGameplayAbilitySpec → List TSubclassOf → List FGameplayAbilitySpecHandle
  | _, [] => []
  | specs, c :: cs =>
    hs.NewAbilityHandle specs ::
      returnedHandles hs (specs ++ [⟨hs.NewAbilityHandle specs, c⟩]) cs

/-- The entries of `DefaultAbilities` whose load succeeds, in list order. -/
def loadedAbilities (w : World K) : List TSubclassOf :=
  w.Self.DefaultAbilities.filterMap fun a => a.LoadSynchronous

/-- A handle source whose new handle is one more than the sum of the absolute
values of the handles in use, hence none of them. -/
def countingHandles : HandleSource where
  NewAbilityHandle := fun l => ((l.map fun s => s.Handle.natAbs).sum + 1 : Nat)
  NewBindingHandle := fun l => ((l.map fun b => b.Handle.natAbs).sum + 1 : Nat)

/-- A character without a controller or input component, with three default
abilities of which the second fails to load, on a component that already grants
one ability. -/
def abilityWorld (auth : Bool) : World Nat where
  Self :=
    { DefaultMappingContext := ⟨none⟩
      JumpAction := ⟨none⟩
      MoveAction := ⟨none⟩
      LookAction := ⟨none⟩
      DefaultAbilities := [⟨some ⟨10⟩⟩, ⟨none⟩, ⟨some ⟨11⟩⟩]
      GivenDefaultAbilities := [] }
  HasAuthority := auth
  AbilitySystemComponent := ⟨[⟨4, ⟨7⟩⟩]⟩
  Controller := none
  InputComponent := none
  InputComponents := fun _ => UInputComponent.Legacy
  Calls := []

/-- The bindings `InitInputActionBindings` is to add, given the handles the
engine returns for them: two for `JumpAction`, one for `MoveAction` and one for
`LookAction`, each present when its action loads. -/
def expectedBindings (Self : ABasePlayerCharacter) (hJS hJC hM hL : Int) :
    List FEnhancedInputActionEventBinding :=
  (match Self.JumpAction.LoadSynchronous with
    | some j =>
      [⟨hJS, j, ETriggerEvent.Started, BoundFunction.Jump⟩,
        ⟨hJC, j, ETriggerEvent.Completed, BoundFunction.StopJumping⟩]
    | none => []) ++
  (match Self.MoveAction.LoadSynchronous with
    | some m => [⟨hM, m, ETriggerEvent.Triggered, BoundFunction.Move⟩]
    | none => []) ++
  (match Self.LookAction.LoadSynchronous with
    | some l => [⟨hL, l, ETriggerEvent.Triggered, BoundFunction.Look⟩]
    | none => [])

/-- The members after `InitInputActionBindings`, given the handles the engine
returns: the handle field of an action that loads holds the new handle, that of
an action that fails to load keeps its value. -/
def expectedSelf (Self : ABasePlayerCharacter) (hJS hJC hM hL : Int) : ABasePlayerCharacter :=
  { Self with
      JumpActionBindingHandle_Started :=
        match Self.JumpAction.LoadSynchronous with
        | some _ => hJS
        | none => Self.JumpActionBindingHandle_Started
      JumpActionBindingHandle_Completed :=
        match Self.JumpAction.LoadSynchronous with
        | some _ => hJC
        | none => Self.JumpActionBindingHandle_Completed
      MoveActionBindingHandle :=
        match Self.MoveAction.LoadSynchronous with
        | some _ => hM
        | none => Self.MoveActionBindingHandle
      LookActionBindingHandle :=
        match Self.LookAction.LoadSynchronous with
        | some _ => hL
        | none => Self.LookActionBindingHandle }

/-- The `BindAction` call on the component at address `a` that adds `b`. -/
def bindCall (a : Nat) (b : FEnhancedInputActionEventBinding) : EngineCall K :=
  EngineCall.BindAction a b.Action b.TriggerEvent b.Func b.Handle

/-- The four handle fields, in the order `DeInitInputActionBindings` uses them. -/
def handleFields (Self : ABasePlayerCharacter) : List Int :=
  [Self.JumpActionBindingHandle_Started, Self.JumpActionBindingHandle_Completed,
    Self.MoveActionBindingHandle, Self.LookActionBindingHandle]

/-- A character with fresh handle fields whose `MoveAction` fails to load; the
input component at address 0 is an Enhanced Input component with two bindings
of someone else, every other address holds a legacy component. -/
def inputWorld : World Nat where
  Self :=
    { DefaultMappingContext := ⟨none⟩
      JumpAction := ⟨some ⟨1⟩⟩
      MoveAction := ⟨none⟩
      LookAction := ⟨some ⟨3⟩⟩
      DefaultAbilities := []
      GivenDefaultAbilities := [] }
  HasAuthority := true
  AbilitySystemComponent := ⟨[]⟩
  Controller := none
  InputComponent := some 0
  InputComponents := fun a =>
    if a = 0 then
      UInputComponent.Enhanced
        ⟨[⟨0, ⟨9⟩, ETriggerEvent.Triggered, BoundFunction.Other 1⟩,
          ⟨3, ⟨8⟩, ETriggerEvent.Started, BoundFunction.Other 2⟩]⟩
    else UInputComponent.Legacy
  Calls := []

/-- A character possessed by a player controller whose local player has an
Enhanced Input subsystem in which context 5 is applied with priority 2; the
default mapping context of the character loads as context 6. -/
def mappingWorld : World Nat where
  Self :=
    { DefaultMappingContext := ⟨some ⟨6⟩⟩
      JumpAction := ⟨none⟩
      MoveAction := ⟨none⟩
      LookAction := ⟨none⟩
      DefaultAbilities := []
      GivenDefaultAbilities := [] }
  HasAuthority := true
  AbilitySystemComponent := ⟨[]⟩
  Controller := some
    { ControlRotation := ⟨0, 0, 0⟩
      AsPlayerController := some
        ⟨some ⟨some ⟨fun m => if m = ⟨5⟩ then some 2 else none⟩⟩⟩ }
  InputComponent := none
  InputComponents := fun _ => UInputComponent.Legacy
  Calls := []

/-- The character of `mappingWorld` possessed by a controller that is not a player
controller. -/
def aiWorld : World Nat :=
  { mappingWorld with
      Controller := some { ControlRotation := ⟨0, 0, 0⟩, AsPlayerController := none } }

/-- `FVector::DotProduct`. -/
def FVector.Dot [Add K] [Mul K] (u v : FVector K) : K :=
  u.X * v.X + u.Y * v.Y + u.Z * v.Z

/-- A character under a controller with the given control rotation that is not
a player controller, with no engine call issued yet. -/
def moveWorld (K : Type) (Rotation : FRotator K) : World K where
  Self :=
    { DefaultMappingContext := ⟨none⟩
      JumpAction := ⟨none⟩
      MoveAction := ⟨none⟩
      LookAction := ⟨none⟩
      DefaultAbilities := []
      GivenDefaultAbilities := [] }
  HasAuthority := true
  AbilitySystemComponent := ⟨[]⟩
  Controller := some { ControlRotation := Rotation, AsPlayerController := none }
  InputComponent := none
  InputComponents := fun _ => UInputComponent.Legacy
  Calls := []

end BasePlayerCharacter

namespace BasePlayerCharacter

variable {K : Type}

/-! ## Removing by handle -/

theorem eraseP_eq_filter_of_nodup {α : Type} (key : α → Int) (h : Int) :
    ∀ l : List α, (l.map key).Nodup →
      l.eraseP (fun x => key x == h) = l.filter (fun x => key x != h) := by
  intro l
  induction l with
  | nil => intro _; rfl
  | cons a l ih =>
    intro hnd
    rw [List.map_cons, List.nodup_cons] at hnd
    by_cases ha : key a = h
    · have hfil : l.filter (fun x => key x != h) = l := by
        apply List.filter_eq_self.2
        intro x hx
        have : key x ≠ h := by
          intro hxe
          exact hnd.1 (by rw [ha, ← hxe]; exact List.mem_map_of_mem key hx)
        simpa using this
      simp [List.eraseP_cons, List.filter_cons, ha, hfil]
    · simp [List.eraseP_cons, List.filter_cons, ha, ih hnd.2]

theorem foldl_eraseP_append {α : Type} (key : α → Int) :
    ∀ (hl : List Int) (old news : List α),
      (∀ x ∈ old, key x ∉ hl) → (∀ x ∈ news, key x ∈ hl) → (news.map key).Nodup →
      hl.foldl (fun l h => l.eraseP (fun x => key x == h)) (old ++ news) = old := by
  intro hl
  induction hl with
  | nil =>
    intro old news _ hnew _
    have : news = [] := by
      cases news with
      | nil => rfl
      | cons a t => exact absurd (hnew a (List.mem_cons_self a t)) (List.not_mem_nil _)
    simp [this]
  | cons h t ih =>
    intro old news hold hnew hnd
    have hno : ∀ b ∈ old, ¬ (fun x => key x == h) b = true := by
      intro b hb hbe
      have : key b = h := by simpa using hbe
      exact hold b hb (by rw [this]; exact List.mem_cons_self h t)
    rw [List.foldl_cons, List.eraseP_append_right _ hno]
    apply ih
    · intro x hx hxt
      exact hold x hx (List.mem_cons_of_mem h hxt)
    · intro x hx
      rw [eraseP_eq_filter_of_nodup key h news hnd] at hx
      have hx2 := List.mem_filter.1 hx
      have hne : key x ≠ h := by simpa using hx2.2
      rcases List.mem_cons.1 (hnew x hx2.1) with hh | hh
      · exact absurd hh hne
      · exact hh
    · exact List.Nodup.sublist ((List.eraseP_sublist news).map key) hnd

/-! ## Default abilities -/

theorem foldl_giveDefaultAbility (hs : HandleSource) :
    ∀ (l : List (TSoftClassPtr TSubclassOf)) (w : World K),
      l.foldl (giveDefaultAbility hs) w =
        { w with
            Self := { w.Self with
              GivenDefaultAbilities := w.Self.GivenDefaultAbilities ++
                returnedHandles hs w.AbilitySystemComponent.ActivatableAbilities
                  (l.filterMap fun a => a.LoadSynchronous) }
            AbilitySystemComponent :=
              ⟨w.AbilitySystemComponent.ActivatableAbilities ++
                List.zipWith FGameplayAbilitySpec.mk
                  (returnedHandles hs w.AbilitySystemComponent.ActivatableAbilities
                    (l.filterMap fun a => a.LoadSynchronous))
                  (l.filterMap fun a => a.LoadSynchronous)⟩
            Calls := w.Calls ++
              List.zipWith EngineCall.K2_GiveAbility (l.filterMap fun a => a.LoadSynchronous)
                (returnedHandles hs w.AbilitySystemComponent.ActivatableAbilities
                  (l.filterMap fun a => a.LoadSynchronous)) } := by
  intro l
  induction l with
  | nil => intro w; simp [returnedHandles]
  | cons a l ih =>
    intro w
    rw [List.foldl_cons, ih]
    cases hload : a.LoadSynchronous with
    | none => simp [giveDefaultAbility, hload, List.filterMap_cons]
    | some c =>
      simp [giveDefaultAbility, hload, List.filterMap_cons, K2_GiveAbility, returnedHandles]

theorem length_returnedHandles (hs : HandleSource) :
    ∀ (cs : List TSubclassOf) (specs : List FGameplayAbilitySpec),
      (returnedHandles hs specs cs).length = cs.length := by
  intro cs
  induction cs with
  | nil => intro specs; rfl
  | cons c cs ih => intro specs; simp [returnedHandles, ih]

theorem returnedHandles_fresh (hs : HandleSource)
    (hfresh : ∀ l, hs.NewAbilityHandle l ∉ l.map fun s => s.Handle) :
    ∀ (cs : List TSubclassOf) (specs : List FGameplayAbilitySpec),
      (∀ h ∈ returnedHandles hs specs cs, h ∉ specs.map fun s => s.Handle) ∧
        (returnedHandles hs specs cs).Nodup := by
  intro cs
  induction cs with
  | nil => intro specs; simp [returnedHandles]
  | cons c cs ih =>
    intro specs
    obtain ⟨h1, h2⟩ := ih (specs ++ [⟨hs.NewAbilityHandle specs, c⟩])
    constructor
    · intro h hh
      rcases List.mem_cons.1 hh with rfl | hh
      · exact hfresh specs
      · intro hmem
        exact h1 h hh (by simp only [List.map_append, List.mem_append]; exact Or.inl hmem)
    · show (hs.NewAbilityHandle specs :: _).Nodup
      refine List.nodup_cons.2 ⟨?_, h2⟩
      intro hmem
      exact h1 _ hmem (by simp)

theorem map_handle_zipWith :
    ∀ (hl : List FGameplayAbilitySpecHandle) (cs : List TSubclassOf), hl.length = cs.length →
      (List.zipWith FGameplayAbilitySpec.mk hl cs).map (fun s => s.Handle) = hl := by
  intro hl
  induction hl with
  | nil => intro cs _; simp
  | cons h t ih =>
    intro cs hlen
    cases cs with
    | nil => simp at hlen
    | cons c cs => simp [ih cs (by simpa using hlen)]

theorem foldl_ClearAbility :
    ∀ (hl : List FGameplayAbilitySpecHandle) (w : World K),
      hl.foldl (fun w h => ClearAbility w h) w =
        { w with
            AbilitySystemComponent :=
              ⟨hl.foldl (fun l h => l.eraseP (fun s => s.Handle == h))
                w.AbilitySystemComponent.ActivatableAbilities⟩
            Calls := w.Calls ++ hl.map EngineCall.ClearAbility } := by
  intro hl
  induction hl with
  | nil => intro w; simp
  | cons h t ih => intro w; rw [List.foldl_cons, ih]; simp [ClearAbility]

theorem InitDefaultAbilities_auth (hs : HandleSource) (w : World K)
    (hauth : w.HasAuthority = true) :
    InitDefaultAbilities hs w = w.Self.DefaultAbilities.foldl (giveDefaultAbility hs) w := by
  unfold InitDefaultAbilities
  by_cases hemp : w.Self.DefaultAbilities = []
  · simp [hauth, hemp]
  · have hemp2 : w.Self.DefaultAbilities.isEmpty = false := by
      simpa [List.isEmpty_iff] using hemp
    simp [hauth, hemp2]

theorem InitDefaultAbilities_eq (hs : HandleSource) (w : World K)
    (hauth : w.HasAuthority = true) :
    InitDefaultAbilities hs w =
      { w with
          Self := { w.Self with
            GivenDefaultAbilities := w.Self.GivenDefaultAbilities ++
              returnedHandles hs w.AbilitySystemComponent.ActivatableAbilities
                (loadedAbilities w) }
          AbilitySystemComponent :=
            ⟨w.AbilitySystemComponent.ActivatableAbilities ++
              List.zipWith FGameplayAbilitySpec.mk
                (returnedHandles hs w.AbilitySystemComponent.ActivatableAbilities
                  (loadedAbilities w))
                (loadedAbilities w)⟩
          Calls := w.Calls ++
            List.zipWith EngineCall.K2_GiveAbility (loadedAbilities w)
              (returnedHandles hs w.AbilitySystemComponent.ActivatableAbilities
                (loadedAbilities w)) } := by
  rw [InitDefaultAbilities_auth hs w hauth]
  exact foldl_giveDefaultAbility hs _ w

theorem DeinitDefaultAbilities_auth (w : World K) (hauth : w.HasAuthority = true)
    (h : w.Self.DefaultAbilities = [] → w.Self.GivenDefaultAbilities = []) :
    DeinitDefaultAbilities w =
      w.Self.GivenDefaultAbilities.foldl (fun w h => ClearAbility w h) w := by
  unfold DeinitDefaultAbilities
  by_cases hemp : w.Self.DefaultAbilities = []
  · simp [hauth, hemp, h hemp]
  · have hemp2 : w.Self.DefaultAbilities.isEmpty = false := by
      simpa [List.isEmpty_iff] using hemp
    simp [hauth, hemp2]

theorem DeinitDefaultAbilities_eq (w : World K) (hauth : w.HasAuthority = true)
    (h : w.Self.DefaultAbilities = [] → w.Self.GivenDefaultAbilities = []) :
    DeinitDefaultAbilities w =
      { w with
          AbilitySystemComponent :=
            ⟨w.Self.GivenDefaultAbilities.foldl (fun l h => l.eraseP (fun s => s.Handle == h))
              w.AbilitySystemComponent.ActivatableAbilities⟩
          Calls := w.Calls ++ w.Self.GivenDefaultAbilities.map EngineCall.ClearAbility } := by
  rw [DeinitDefaultAbilities_auth w hauth h]
  exact foldl_ClearAbility _ w

theorem DeinitDefaultAbilities_InitDefaultAbilities (hs : HandleSource) (w : World K)
    (hauth : w.HasAuthority = true) (hgiven : w.Self.GivenDefaultAbilities = [])
    (hfresh : ∀ l, hs.NewAbilityHandle l ∉ l.map fun s => s.Handle) :
    DeinitDefaultAbilities (InitDefaultAbilities hs w) =
      { InitDefaultAbilities hs w with
          AbilitySystemComponent := w.AbilitySystemComponent
          Calls := (InitDefaultAbilities hs w).Calls ++
            (InitDefaultAbilities hs w).Self.GivenDefaultAbilities.map
              EngineCall.ClearAbility } := by
  have hlen := length_returnedHandles hs (loadedAbilities w)
    w.AbilitySystemComponent.ActivatableAbilities
  obtain ⟨hdisj, hnd⟩ := returnedHandles_fresh hs hfresh (loadedAbilities w)
    w.AbilitySystemComponent.ActivatableAbilities
  have hmap := map_handle_zipWith
    (returnedHandles hs w.AbilitySystemComponent.ActivatableAbilities (loadedAbilities w))
    (loadedAbilities w) hlen
  have herase := foldl_eraseP_append (fun s : FGameplayAbilitySpec => s.Handle)
    (returnedHandles hs w.AbilitySystemComponent.ActivatableAbilities (loadedAbilities w))
    w.AbilitySystemComponent.ActivatableAbilities
    (List.zipWith FGameplayAbilitySpec.mk
      (returnedHandles hs w.AbilitySystemComponent.ActivatableAbilities (loadedAbilities w))
      (loadedAbilities w))
    (by
      intro x hx hmem
      exact hdisj _ hmem (List.mem_map_of_mem (fun s : FGameplayAbilitySpec => s.Handle) hx))
    (by
      intro x hx
      have := List.mem_map_of_mem (fun s : FGameplayAbilitySpec => s.Handle) hx
      rwa [hmap] at this)
    (by rw [hmap]; exact hnd)
  have h1 := InitDefaultAbilities_eq hs w hauth
  have hauth1 : (InitDefaultAbilities hs w).HasAuthority = true := by rw [h1]; exact hauth
  have hda : (InitDefaultAbilities hs w).Self.DefaultAbilities = w.Self.DefaultAbilities := by
    rw [h1]
  have hg : (InitDefaultAbilities hs w).Self.GivenDefaultAbilities =
      returnedHandles hs w.AbilitySystemComponent.ActivatableAbilities (loadedAbilities w) := by
    rw [h1]; simp [hgiven]
  have hasc : (InitDefaultAbilities hs w).AbilitySystemComponent.ActivatableAbilities =
      w.AbilitySystemComponent.ActivatableAbilities ++
        List.zipWith FGameplayAbilitySpec.mk
          (returnedHandles hs w.AbilitySystemComponent.ActivatableAbilities (loadedAbilities w))
          (loadedAbilities w) := by
    rw [h1]
  rw [DeinitDefaultAbilities_eq (InitDefaultAbilities hs w) hauth1 (by
    intro hemp
    rw [hda] at hemp
    rw [hg]
    simp [loadedAbilities, hemp, returnedHandles])]
  rw [hg, hasc, herase]

theorem RemoveBindingByHandle_AbilitySystemComponent (w : World K) (a : Nat) (h : Int) :
    (RemoveBindingByHandle w a h).AbilitySystemComponent = w.AbilitySystemComponent := by
  unfold RemoveBindingByHandle
  split <;> rfl

theorem DeInitInputActionBindings_AbilitySystemComponent (w : World K) :
    (DeInitInputActionBindings w).AbilitySystemComponent = w.AbilitySystemComponent := by
  unfold DeInitInputActionBindings
  split
  · rfl
  · split
    · rfl
    · simp [RemoveBindingByHandle_AbilitySystemComponent]

theorem DeinitMappingContext_AbilitySystemComponent (w : World K) :
    (DeinitMappingContext w).AbilitySystemComponent = w.AbilitySystemComponent := by
  unfold DeinitMappingContext
  split
  · rfl
  · split
    · rfl
    · split <;> rfl

theorem natAbs_sum_succ_not_mem {α : Type} (key : α → Int) (l : List α) :
    (((l.map fun x => (key x).natAbs).sum + 1 : Nat) : Int) ∉ l.map key := by
  have hle : ∀ (l : List α) (x : α), x ∈ l →
      (key x).natAbs ≤ (l.map fun x => (key x).natAbs).sum := by
    intro l
    induction l with
    | nil => intro x hx; exact absurd hx (List.not_mem_nil x)
    | cons a t ih =>
      intro x hx
      rcases List.mem_cons.1 hx with rfl | hx
      · simp
      · have := ih x hx
        simp only [List.map_cons, List.sum_cons]
        omega
  intro hmem
  obtain ⟨x, hx, hxe⟩ := List.mem_map.1 hmem
  have h1 := hle l x hx
  have h2 : (key x).natAbs = (l.map fun x => (key x).natAbs).sum + 1 := by
    rw [hxe]; exact Int.natAbs_ofNat _
  omega

theorem countingHandles_fresh_ability :
    ∀ l : List FGameplayAbilitySpec,
      countingHandles.NewAbilityHandle l ∉ l.map fun s => s.Handle :=
  fun l => natAbs_sum_succ_not_mem (fun s : FGameplayAbilitySpec => s.Handle) l

theorem countingHandles_fresh_binding :
    ∀ l : List FEnhancedInputActionEventBinding,
      countingHandles.NewBindingHandle l ∉ l.map fun b => b.Handle :=
  fun l => natAbs_sum_succ_not_mem (fun b : FEnhancedInputActionEventBinding => b.Handle) l

/-! ## Claims on the default abilities -/

/-- C1. With authority, `InitDefaultAbilities` calls `K2_GiveAbility` exactly once
for each entry of `DefaultAbilities` whose load succeeds, in list order, and no
other engine call; the handles the calls return are appended in that order to
`GivenDefaultAbilities`, and each is the handle of the ability granted for its
class.  Without authority the world, and so the component and
`GivenDefaultAbilities`, is unchanged. -/
theorem InitDefaultAbilities_spec (hs : HandleSource) (w : World K) :
    (w.HasAuthority = true →
      ∃ handles : List FGameplayAbilitySpecHandle,
        handles.length = (loadedAbilities w).length ∧
        (InitDefaultAbilities hs w).Calls =
          w.Calls ++ List.zipWith EngineCall.K2_GiveAbility (loadedAbilities w) handles ∧
        (InitDefaultAbilities hs w).Self.GivenDefaultAbilities =
          w.Self.GivenDefaultAbilities ++ handles ∧
        (InitDefaultAbilities hs w).AbilitySystemComponent.ActivatableAbilities =
          w.AbilitySystemComponent.ActivatableAbilities ++
            List.zipWith FGameplayAbilitySpec.mk handles (loadedAbilities w)) ∧
    (w.HasAuthority = false → InitDefaultAbilities hs w = w) := by
  constructor
  · intro hauth
    refine ⟨returnedHandles hs w.AbilitySystemComponent.ActivatableAbilities (loadedAbilities w),
      length_returnedHandles hs _ _, ?_, ?_, ?_⟩ <;>
    rw [InitDefaultAbilities_eq hs w hauth]
  · intro hauth
    simp [InitDefaultAbilities, hauth]

/-- Witness of C1: a character with authority and one without, each with three
default abilities of which the second fails to load. -/
theorem InitDefaultAbilities_spec_witness :
    ((abilityWorld true).HasAuthority = true ∧
      ∃ handles : List FGameplayAbilitySpecHandle,
        handles.length = (loadedAbilities (abilityWorld true)).length ∧
        (InitDefaultAbilities countingHandles (abilityWorld true)).Calls =
          (abilityWorld true).Calls ++
            List.zipWith EngineCall.K2_GiveAbility (loadedAbilities (abilityWorld true))
              handles ∧
        (InitDefaultAbilities countingHandles (abilityWorld true)).Self.GivenDefaultAbilities =
          (abilityWorld true).Self.GivenDefaultAbilities ++ handles ∧
        (InitDefaultAbilities countingHandles
            (abilityWorld true)).AbilitySystemComponent.ActivatableAbilities =
          (abilityWorld true).AbilitySystemComponent.ActivatableAbilities ++
            List.zipWith FGameplayAbilitySpec.mk handles (loadedAbilities (abilityWorld true))) ∧
    ((abilityWorld false).HasAuthority = false ∧
      InitDefaultAbilities countingHandles (abilityWorld false) = abilityWorld false) :=
  ⟨⟨rfl, (InitDefaultAbilities_spec countingHandles (abilityWorld true)).1 rfl⟩,
    ⟨rfl, (InitDefaultAbilities_spec countingHandles (abilityWorld false)).2 rfl⟩⟩

/-- C2. For a character with authority whose `GivenDefaultAbilities` is empty,
and an engine that gives every new ability a handle no granted ability has,
`BeginPlay` followed by `EndPlay` (and likewise `InitDefaultAbilities` followed
by `DeinitDefaultAbilities`) leaves the ability system component granting
exactly the abilities it granted before, and the `ClearAbility` calls are
exactly those for the handles `InitDefaultAbilities` stored. -/
theorem BeginPlay_EndPlay_abilities (hs : HandleSource) (w : World K)
    (hauth : w.HasAuthority = true) (hgiven : w.Self.GivenDefaultAbilities = [])
    (hfresh : ∀ l, hs.NewAbilityHandle l ∉ l.map fun s => s.Handle) :
    (EndPlay (BeginPlay hs w)).AbilitySystemComponent = w.AbilitySystemComponent ∧
    (DeinitDefaultAbilities (InitDefaultAbilities hs w)).AbilitySystemComponent =
      w.AbilitySystemComponent ∧
    (DeinitDefaultAbilities (InitDefaultAbilities hs w)).Calls =
      (InitDefaultAbilities hs w).Calls ++
        (InitDefaultAbilities hs w).Self.GivenDefaultAbilities.map EngineCall.ClearAbility := by
  have h := DeinitDefaultAbilities_InitDefaultAbilities hs w hauth hgiven hfresh
  refine ⟨?_, ?_, ?_⟩
  · unfold EndPlay BeginPlay
    rw [DeinitMappingContext_AbilitySystemComponent,
      DeInitInputActionBindings_AbilitySystemComponent, h]
  · rw [h]
  · rw [h]

/-- Witness of C2: the character of `abilityWorld` with authority, whose component
grants one ability beforehand. -/
theorem BeginPlay_EndPlay_abilities_witness :
    (EndPlay (BeginPlay countingHandles (abilityWorld true))).AbilitySystemComponent =
      ⟨[⟨4, ⟨7⟩⟩]⟩ ∧
    (InitDefaultAbilities countingHandles (abilityWorld true)).AbilitySystemComponent =
      ⟨[⟨4, ⟨7⟩⟩, ⟨5, ⟨10⟩⟩, ⟨10, ⟨11⟩⟩]⟩ ∧
    (DeinitDefaultAbilities (InitDefaultAbilities countingHandles (abilityWorld true))).Calls =
      [EngineCall.K2_GiveAbility ⟨10⟩ 5, EngineCall.K2_GiveAbility ⟨11⟩ 10,
        EngineCall.ClearAbility 5, EngineCall.ClearAbility 10] :=
  ⟨(BeginPlay_EndPlay_abilities countingHandles (abilityWorld true) rfl rfl
      countingHandles_fresh_ability).1, by decide, by decide⟩

/-! ## Input action bindings -/

theorem BindAction_eq (hs : HandleSource) (w : World K) (a : Nat)
    (c : UEnhancedInputComponent) (hc : w.InputComponents a = UInputComponent.Enhanced c)
    (Action : UInputAction) (ev : ETriggerEvent) (f : BoundFunction) :
    BindAction hs w a Action ev f =
      ({ w with
          InputComponents := Function.update w.InputComponents a
            (UInputComponent.Enhanced
              ⟨c.EnhancedActionEventBindings ++
                [⟨hs.NewBindingHandle c.EnhancedActionEventBindings, Action, ev, f⟩]⟩)
          Calls := w.Calls ++
            [EngineCall.BindAction a Action ev f
              (hs.NewBindingHandle c.EnhancedActionEventBindings)] },
        hs.NewBindingHandle c.EnhancedActionEventBindings) := by
  unfold BindAction
  rw [hc]

theorem RemoveBindingByHandle_eq (w : World K) (a : Nat)
    (c : UEnhancedInputComponent) (hc : w.InputComponents a = UInputComponent.Enhanced c)
    (h : Int) :
    RemoveBindingByHandle w a h =
      { w with
          InputComponents := Function.update w.InputComponents a
            (UInputComponent.Enhanced
              ⟨c.EnhancedActionEventBindings.eraseP (fun b => b.Handle == h)⟩)
          Calls := w.Calls ++ [EngineCall.RemoveBindingByHandle a h] } := by
  unfold RemoveBindingByHandle
  rw [hc]

theorem Cast_UEnhancedInputComponent_eq_some (w : World K) (p : Option Nat) (a : Nat)
    (c : UEnhancedInputComponent) :
    Cast_UEnhancedInputComponent w p = some (a, c) ↔
      p = some a ∧ w.InputComponents a = UInputComponent.Enhanced c := by
  unfold Cast_UEnhancedInputComponent
  cases p with
  | none => simp
  | some a0 =>
    cases hc : w.InputComponents a0 with
    | Legacy =>
      simp only [hc]
      constructor
      · intro h
        exact Option.noConfusion h
      · rintro ⟨h1, h2⟩
        rw [Option.some.inj h1, h2] at hc
        exact UInputComponent.noConfusion hc
    | Enhanced c0 =>
      simp only [hc, Option.some.injEq, Prod.mk.injEq]
      constructor
      · rintro ⟨rfl, rfl⟩
        exact ⟨rfl, hc⟩
      · rintro ⟨rfl, h2⟩
        rw [hc] at h2
        exact ⟨rfl, UInputComponent.Enhanced.inj h2⟩

theorem InitInputActionBindings_shape (hs : HandleSource) (w : World K) (a : Nat)
    (c : UEnhancedInputComponent) (hc : w.InputComponents a = UInputComponent.Enhanced c) :
    ∃ hJS hJC hM hL : Int,
      InitInputActionBindings hs w (some a) =
        { w with
            Self := expectedSelf w.Self hJS hJC hM hL
            InputComponents := Function.update w.InputComponents a
              (UInputComponent.Enhanced
                ⟨c.EnhancedActionEventBindings ++ expectedBindings w.Self hJS hJC hM hL⟩)
            Calls := w.Calls ++ (expectedBindings w.Self hJS hJC hM hL).map (bindCall a) } ∧
      ((∀ l, hs.NewBindingHandle l ∉ l.map fun b => b.Handle) →
        ((expectedBindings w.Self hJS hJC hM hL).map fun b => b.Handle).Nodup ∧
        ∀ b ∈ expectedBindings w.Self hJS hJC hM hL,
          b.Handle ∉ c.EnhancedActionEventBindings.map fun b => b.Handle) := by
  have hcast : Cast_UEnhancedInputComponent w (some a) = some (a, c) :=
    (Cast_UEnhancedInputComponent_eq_some w (some a) a c).2 ⟨rfl, hc⟩
  let old := c.EnhancedActionEventBindings
  let hJS := hs.NewBindingHandle old
  let j0 := (w.Self.JumpAction.LoadSynchronous).getD ⟨0⟩
  let hJC := hs.NewBindingHandle (old ++ [⟨hJS, j0, ETriggerEvent.Started, BoundFunction.Jump⟩])
  let jb : List FEnhancedInputActionEventBinding :=
    match w.Self.JumpAction.LoadSynchronous with
    | some j =>
      [⟨hJS, j, ETriggerEvent.Started, BoundFunction.Jump⟩,
        ⟨hJC, j, ETriggerEvent.Completed, BoundFunction.StopJumping⟩]
    | none => []
  let hM := hs.NewBindingHandle (old ++ jb)
  let mb : List FEnhancedInputActionEventBinding :=
    match w.Self.MoveAction.LoadSynchronous with
    | some m => [⟨hM, m, ETriggerEvent.Triggered, BoundFunction.Move⟩]
    | none => []
  let hL := hs.NewBindingHandle (old ++ jb ++ mb)
  have hupd : Function.update w.InputComponents a
      (UInputComponent.Enhanced ⟨c.EnhancedActionEventBindings⟩) = w.InputComponents := by
    have h := Function.update_eq_self a w.InputComponents
    rw [hc] at h
    exact h
  refine ⟨hJS, hJC, hM, hL, ?_, ?_⟩
  · unfold InitInputActionBindings
    rw [hcast]
    cases hj : w.Self.JumpAction.LoadSynchronous <;>
    cases hm : w.Self.MoveAction.LoadSynchronous <;>
    cases hl : w.Self.LookAction.LoadSynchronous <;>
    simp [bindJump, bindMove, bindLook, BindAction, hc, hj, hm, hl, expectedBindings,
      expectedSelf, bindCall, hJS, hJC, hM, hL, jb, mb, j0, old, hupd]
  · intro hfresh
    have f1 := hfresh old
    have f2 := hfresh (old ++ [⟨hJS, j0, ETriggerEvent.Started, BoundFunction.Jump⟩])
    have f3 := hfresh (old ++ jb)
    have f4 := hfresh (old ++ jb ++ mb)
    cases hj : w.Self.JumpAction.LoadSynchronous <;>
    cases hm : w.Self.MoveAction.LoadSynchronous <;>
    cases hl : w.Self.LookAction.LoadSynchronous <;>
    simp [hj, hm, hl, expectedBindings, hJS, hJC, hM, hL, jb, mb, j0, old] at f1 f2 f3 f4 ⊢ <;>
    tauto

theorem expectedBindings_handle_mem (S : ABasePlayerCharacter) (hJS hJC hM hL : Int) :
    ∀ b ∈ expectedBindings S hJS hJC hM hL,
      b.Handle ∈ handleFields (expectedSelf S hJS hJC hM hL) := by
  cases hj : S.JumpAction.LoadSynchronous <;>
  cases hm : S.MoveAction.LoadSynchronous <;>
  cases hl : S.LookAction.LoadSynchronous <;>
  simp [expectedBindings, expectedSelf, handleFields, hj, hm, hl]

theorem handleFields_expectedSelf (S : ABasePlayerCharacter) (hJS hJC hM hL : Int) :
    ∀ h ∈ handleFields (expectedSelf S hJS hJC hM hL),
      h ∈ handleFields S ∨ h ∈ (expectedBindings S hJS hJC hM hL).map fun b => b.Handle := by
  cases hj : S.JumpAction.LoadSynchronous <;>
  cases hm : S.MoveAction.LoadSynchronous <;>
  cases hl : S.LookAction.LoadSynchronous <;>
  simp [expectedBindings, expectedSelf, handleFields, hj, hm, hl]

theorem DeInitInputActionBindings_eq (w : World K) (a : Nat) (c : UEnhancedInputComponent)
    (hp : w.InputComponent = some a)
    (hc : w.InputComponents a = UInputComponent.Enhanced c) :
    DeInitInputActionBindings w =
      { w with
          InputComponents := Function.update w.InputComponents a
            (UInputComponent.Enhanced
              ⟨(handleFields w.Self).foldl (fun l h => l.eraseP (fun b => b.Handle == h))
                c.EnhancedActionEventBindings⟩)
          Calls := w.Calls ++
            (handleFields w.Self).map (EngineCall.RemoveBindingByHandle a) } := by
  have hcast : Cast_UEnhancedInputComponent w (some a) = some (a, c) :=
    (Cast_UEnhancedInputComponent_eq_some w (some a) a c).2 ⟨rfl, hc⟩
  unfold DeInitInputActionBindings
  rw [hp]
  simp only [hcast]
  simp [RemoveBindingByHandle, hc, handleFields, hp]

/-! ## Claims on the input action bindings -/

/-- C3. On an Enhanced Input component, `InitInputActionBindings` adds exactly the
bindings of `expectedBindings` (Jump on Started and StopJumping on Completed iff
`JumpAction` loads, Move on Triggered iff `MoveAction` loads, Look on Triggered
iff `LookAction` loads), by one `BindAction` call each and no other engine call,
stores each returned handle in the matching handle field, leaves the handle
fields of actions that failed to load as they were, and changes nothing else.
On a null pointer or a legacy component it changes nothing at all. -/
theorem InitInputActionBindings_spec (hs : HandleSource) (w : World K) (p : Option Nat) :
    (∀ a c, p = some a → w.InputComponents a = UInputComponent.Enhanced c →
      ∃ hJS hJC hM hL : Int,
        InitInputActionBindings hs w p =
          { w with
              Self := expectedSelf w.Self hJS hJC hM hL
              InputComponents := Function.update w.InputComponents a
                (UInputComponent.Enhanced
                  ⟨c.EnhancedActionEventBindings ++ expectedBindings w.Self hJS hJC hM hL⟩)
              Calls := w.Calls ++
                (expectedBindings w.Self hJS hJC hM hL).map (bindCall a) }) ∧
    ((p = none ∨ ∃ a, p = some a ∧ w.InputComponents a = UInputComponent.Legacy) →
      InitInputActionBindings hs w p = w) := by
  constructor
  · intro a c hp hc
    obtain ⟨hJS, hJC, hM, hL, heq, _⟩ := InitInputActionBindings_shape hs w a c hc
    exact ⟨hJS, hJC, hM, hL, by rw [hp]; exact heq⟩
  · intro h
    have hcast : Cast_UEnhancedInputComponent w p = none := by
      rcases h with h | ⟨a, hp, hc⟩
      · rw [h]; rfl
      · rw [hp]; unfold Cast_UEnhancedInputComponent; simp only [hc]
    unfold InitInputActionBindings
    rw [hcast]

/-- Witness of C3: on the Enhanced Input component at address 0 of `inputWorld`,
where `MoveAction` fails to load, and on the legacy component at address 1. -/
theorem InitInputActionBindings_spec_witness :
    (∃ hJS hJC hM hL : Int,
      InitInputActionBindings countingHandles inputWorld (some 0) =
        { inputWorld with
            Self := expectedSelf inputWorld.Self hJS hJC hM hL
            InputComponents := Function.update inputWorld.InputComponents 0
              (UInputComponent.Enhanced
                ⟨[⟨0, ⟨9⟩, ETriggerEvent.Triggered, BoundFunction.Other 1⟩,
                    ⟨3, ⟨8⟩, ETriggerEvent.Started, BoundFunction.Other 2⟩] ++
                  expectedBindings inputWorld.Self hJS hJC hM hL⟩)
            Calls := inputWorld.Calls ++
              (expectedBindings inputWorld.Self hJS hJC hM hL).map (bindCall 0) }) ∧
    InitInputActionBindings countingHandles inputWorld (some 1) = inputWorld ∧
    (InitInputActionBindings countingHandles inputWorld (some 0)).InputComponents 0 =
      UInputComponent.Enhanced
        ⟨[⟨0, ⟨9⟩, ETriggerEvent.Triggered, BoundFunction.Other 1⟩,
          ⟨3, ⟨8⟩, ETriggerEvent.Started, BoundFunction.Other 2⟩,
          ⟨4, ⟨1⟩, ETriggerEvent.Started, BoundFunction.Jump⟩,
          ⟨8, ⟨1⟩, ETriggerEvent.Completed, BoundFunction.StopJumping⟩,
          ⟨16, ⟨3⟩, ETriggerEvent.Triggered, BoundFunction.Look⟩]⟩ ∧
    handleFields (InitInputActionBindings countingHandles inputWorld (some 0)).Self =
      [4, 8, -1, 16] :=
  ⟨(InitInputActionBindings_spec countingHandles inputWorld (some 0)).1 0 _ rfl rfl,
    (InitInputActionBindings_spec countingHandles inputWorld (some 1)).2
      (Or.inr ⟨1, rfl, rfl⟩),
    by decide, by decide⟩

/-- C4. Let the component at address `a` be an Enhanced Input component whose
bindings all have non-negative handles, let the four handle fields hold their
initial value -1, and let the engine give every new binding a handle no binding
of the component has.  Then `InitInputActionBindings` on `a` followed by
`DeInitInputActionBindings` with `InputComponent` pointing to `a` leaves that
component with exactly the bindings it had before, and every other input
component as it was. -/
theorem InitInputActionBindings_DeInitInputActionBindings (hs : HandleSource) (w : World K)
    (a : Nat) (c : UEnhancedInputComponent)
    (hc : w.InputComponents a = UInputComponent.Enhanced c)
    (hnonneg : ∀ b ∈ c.EnhancedActionEventBindings, 0 ≤ b.Handle)
    (hinit : handleFields w.Self = [-1, -1, -1, -1])
    (hfresh : ∀ l, hs.NewBindingHandle l ∉ l.map fun b => b.Handle) :
    (DeInitInputActionBindings
        { InitInputActionBindings hs w (some a) with
            InputComponent := some a }).InputComponents a = UInputComponent.Enhanced c ∧
    (DeInitInputActionBindings
        { InitInputActionBindings hs w (some a) with
            InputComponent := some a }).InputComponents = w.InputComponents := by
  obtain ⟨hJS, hJC, hM, hL, heq, hfr⟩ := InitInputActionBindings_shape hs w a c hc
  obtain ⟨hnd, hdisj⟩ := hfr hfresh
  have hc1 : ({ InitInputActionBindings hs w (some a) with
      InputComponent := some a } : World K).InputComponents a =
      UInputComponent.Enhanced
        ⟨c.EnhancedActionEventBindings ++ expectedBindings w.Self hJS hJC hM hL⟩ := by
    rw [heq]; simp
  have hself : (InitInputActionBindings hs w (some a)).Self =
      expectedSelf w.Self hJS hJC hM hL := by
    rw [heq]
  have hcomps : (InitInputActionBindings hs w (some a)).InputComponents =
      Function.update w.InputComponents a
        (UInputComponent.Enhanced
          ⟨c.EnhancedActionEventBindings ++ expectedBindings w.Self hJS hJC hM hL⟩) := by
    rw [heq]
  have herase : (handleFields (expectedSelf w.Self hJS hJC hM hL)).foldl
      (fun l h => l.eraseP (fun b => b.Handle == h))
      (c.EnhancedActionEventBindings ++ expectedBindings w.Self hJS hJC hM hL) =
      c.EnhancedActionEventBindings :=
    foldl_eraseP_append (fun b : FEnhancedInputActionEventBinding => b.Handle)
    (handleFields (expectedSelf w.Self hJS hJC hM hL)) c.EnhancedActionEventBindings
    (expectedBindings w.Self hJS hJC hM hL)
    (by
      intro x hx hmem
      rcases handleFields_expectedSelf w.Self hJS hJC hM hL _ hmem with h | h
      · rw [hinit] at h
        have hneg : x.Handle = -1 := by simpa using h
        have := hnonneg x hx
        omega
      · obtain ⟨b, hb, hbe⟩ := List.mem_map.1 h
        apply hdisj b hb
        rw [hbe]
        exact List.mem_map_of_mem (fun b : FEnhancedInputActionEventBinding => b.Handle) hx)
    (expectedBindings_handle_mem w.Self hJS hJC hM hL) hnd
  have hfinal : (DeInitInputActionBindings
      { InitInputActionBindings hs w (some a) with
          InputComponent := some a }).InputComponents = w.InputComponents := by
    rw [DeInitInputActionBindings_eq _ a _ rfl hc1]
    simp only [hself, hcomps, herase, Function.update_idem]
    have h := Function.update_eq_self a w.InputComponents
    rw [hc] at h
    exact h
  exact ⟨by rw [hfinal]; exact hc, hfinal⟩

/-- Witness of C4: the character of `inputWorld`, whose component at address 0
holds two bindings of someone else, with handles 0 and 3. -/
theorem InitInputActionBindings_DeInitInputActionBindings_witness :
    (DeInitInputActionBindings
        { InitInputActionBindings countingHandles inputWorld (some 0) with
            InputComponent := some 0 }).InputComponents 0 =
      UInputComponent.Enhanced
        ⟨[⟨0, ⟨9⟩, ETriggerEvent.Triggered, BoundFunction.Other 1⟩,
          ⟨3, ⟨8⟩, ETriggerEvent.Started, BoundFunction.Other 2⟩]⟩ ∧
    (DeInitInputActionBindings
        { InitInputActionBindings countingHandles inputWorld (some 0) with
            InputComponent := some 0 }).Calls =
      [EngineCall.BindAction 0 ⟨1⟩ ETriggerEvent.Started BoundFunction.Jump 4,
        EngineCall.BindAction 0 ⟨1⟩ ETriggerEvent.Completed BoundFunction.StopJumping 8,
        EngineCall.BindAction 0 ⟨3⟩ ETriggerEvent.Triggered BoundFunction.Look 16,
        EngineCall.RemoveBindingByHandle 0 4, EngineCall.RemoveBindingByHandle 0 8,
        EngineCall.RemoveBindingByHandle 0 (-1), EngineCall.RemoveBindingByHandle 0 16] :=
  ⟨(InitInputActionBindings_DeInitInputActionBindings countingHandles inputWorld 0 _ rfl
      (by decide) rfl countingHandles_fresh_binding).1, by decide⟩

/-! ## Claims on the mapping context -/

/-- C5. `InitMappingContext`, which is all `NotifyControllerChanged` does, calls
`AddMappingContext(DefaultMappingContext, 0)` on the Enhanced Input subsystem
when `Controller` is a player controller, its local player has such a subsystem
and `DefaultMappingContext` loads: the context is then applied with priority 0
and nothing else changes.  In every other case it issues no call and changes
nothing.  In both cases the members of the character are unchanged. -/
theorem InitMappingContext_spec (w : World K) :
    (∀ (c : AController K) (pc : APlayerController) (lp : ULocalPlayer)
        (sub : UEnhancedInputLocalPlayerSubsystem) (ctx : UInputMappingContext),
      w.Controller = some c → c.AsPlayerController = some pc → pc.LocalPlayer = some lp →
      lp.EnhancedInputSubsystem = some sub →
      w.Self.DefaultMappingContext.LoadSynchronous = some ctx →
      InitMappingContext w =
        { w with
            Controller := some
              { c with
                  AsPlayerController := some
                    { pc with
                        LocalPlayer := some
                          { lp with
                              EnhancedInputSubsystem := some
                                ⟨Function.update sub.AppliedInputContexts ctx (some 0)⟩ } } }
            Calls := w.Calls ++ [EngineCall.AddMappingContext ctx 0] }) ∧
    ((¬ ∃ (c : AController K) (pc : APlayerController) (lp : ULocalPlayer)
        (sub : UEnhancedInputLocalPlayerSubsystem) (ctx : UInputMappingContext),
      w.Controller = some c ∧ c.AsPlayerController = some pc ∧ pc.LocalPlayer = some lp ∧
      lp.EnhancedInputSubsystem = some sub ∧
      w.Self.DefaultMappingContext.LoadSynchronous = some ctx) →
      InitMappingContext w = w) ∧
    (InitMappingContext w).Self = w.Self ∧
    NotifyControllerChanged w = InitMappingContext w := by
  refine ⟨?_, ?_, ?_, rfl⟩
  · intro c pc lp sub ctx h1 h2 h3 h4 h5
    simp [InitMappingContext, Cast_APlayerController, GetSubsystem, AddMappingContext,
      setSubsystem, h1, h2, h3, h4, h5]
  · intro hno
    unfold InitMappingContext
    cases h1 : w.Controller with
    | none => simp [Cast_APlayerController]
    | some c =>
      cases h2 : c.AsPlayerController with
      | none => simp [Cast_APlayerController, h2]
      | some pc =>
        cases h3 : pc.LocalPlayer with
        | none => simp [Cast_APlayerController, GetSubsystem, h2, h3]
        | some lp =>
          cases h4 : lp.EnhancedInputSubsystem with
          | none => simp [Cast_APlayerController, GetSubsystem, h2, h3, h4]
          | some sub =>
            cases h5 : w.Self.DefaultMappingContext.LoadSynchronous with
            | none => simp [Cast_APlayerController, GetSubsystem, h2, h3, h4]
            | some ctx => exact absurd ⟨c, pc, lp, sub, ctx, h1, h2, h3, h4, h5⟩ hno
  · unfold InitMappingContext
    split
    · rfl
    · split
      · rfl
      · split <;> rfl

/-- Witness of C5: the player-controlled character of `mappingWorld`, and the same
character under a controller that is not a player controller. -/
theorem InitMappingContext_spec_witness :
    (InitMappingContext mappingWorld).Calls = [EngineCall.AddMappingContext ⟨6⟩ 0] ∧
    InitMappingContext aiWorld = aiWorld :=
  ⟨congrArg World.Calls
      ((InitMappingContext_spec mappingWorld).1 _ _ _ _ _ rfl rfl rfl rfl rfl),
    (InitMappingContext_spec aiWorld).2.1 (by
      rintro ⟨c, pc, lp, sub, ctx, h1, h2, _⟩
      have hc : c = { ControlRotation := ⟨0, 0, 0⟩, AsPlayerController := none } :=
        (Option.some.inj h1).symm
      rw [hc] at h2
      exact Option.noConfusion h2)⟩

/-- C6. When `Controller` is a player controller whose local player has an
Enhanced Input subsystem and `DefaultMappingContext` loads, then after
`InitMappingContext` followed by `DeinitMappingContext` the default mapping
context is not applied in that subsystem, and every other mapping context is
applied exactly as before the two calls. -/
theorem InitMappingContext_DeinitMappingContext (w : World K)
    (c : AController K) (pc : APlayerController) (lp : ULocalPlayer)
    (sub : UEnhancedInputLocalPlayerSubsystem) (ctx : UInputMappingContext)
    (h1 : w.Controller = some c) (h2 : c.AsPlayerController = some pc)
    (h3 : pc.LocalPlayer = some lp) (h4 : lp.EnhancedInputSubsystem = some sub)
    (h5 : w.Self.DefaultMappingContext.LoadSynchronous = some ctx) :
    ∃ sub2 : UEnhancedInputLocalPlayerSubsystem,
      (DeinitMappingContext (InitMappingContext w)).Controller = some
        { c with
            AsPlayerController := some
              { pc with
                  LocalPlayer := some { lp with EnhancedInputSubsystem := some sub2 } } } ∧
      sub2.AppliedInputContexts ctx = none ∧
      ∀ m, m ≠ ctx → sub2.AppliedInputContexts m = sub.AppliedInputContexts m := by
  refine ⟨⟨Function.update sub.AppliedInputContexts ctx none⟩, ?_, ?_, ?_⟩
  · simp [InitMappingContext, DeinitMappingContext, Cast_APlayerController, GetSubsystem,
      AddMappingContext, RemoveMappingContext, setSubsystem, h1, h2, h3, h4, h5]
  · simp
  · intro m hm
    simp [Function.update_noteq hm]

/-- Witness of C6: the character of `mappingWorld`, in whose subsystem context 5 is
applied beforehand. -/
theorem InitMappingContext_DeinitMappingContext_witness :
    ∃ sub2 : UEnhancedInputLocalPlayerSubsystem,
      (DeinitMappingContext (InitMappingContext mappingWorld)).Controller = some
        { ControlRotation := ⟨0, 0, 0⟩
          AsPlayerController := some ⟨some ⟨some sub2⟩⟩ } ∧
      sub2.AppliedInputContexts ⟨6⟩ = none ∧
      ∀ m, m ≠ ⟨6⟩ →
        sub2.AppliedInputContexts m = if m = ⟨5⟩ then some 2 else none :=
  InitMappingContext_DeinitMappingContext mappingWorld _ _ _ _ _ rfl rfl rfl rfl rfl

/-! ## Movement input -/

theorem GetUnitAxis_X_yaw (invSqrt : ℝ → ℝ) (yaw : ℝ) :
    (FRotationMatrix.make ⟨Real.pi, Real.sin, Real.cos, invSqrt⟩ ⟨0, yaw, 0⟩).GetUnitAxis
        ⟨Real.pi, Real.sin, Real.cos, invSqrt⟩ EAxis.X =
      ⟨Real.cos (yaw * (Real.pi / 180)), Real.sin (yaw * (Real.pi / 180)), 0⟩ := by
  have h1 : Real.cos (yaw * (Real.pi / 180)) * Real.cos (yaw * (Real.pi / 180)) +
      Real.sin (yaw * (Real.pi / 180)) * Real.sin (yaw * (Real.pi / 180)) = 1 := by
    have := Real.cos_sq_add_sin_sq (yaw * (Real.pi / 180))
    nlinarith [this]
  simp [FRotationMatrix.make, FRotationMatrix.GetUnitAxis, FRotationMatrix.GetScaledAxis,
    FVector.GetSafeNormal, FMath.DegreesToRadians, h1]

theorem GetUnitAxis_Y_yaw (invSqrt : ℝ → ℝ) (yaw : ℝ) :
    (FRotationMatrix.make ⟨Real.pi, Real.sin, Real.cos, invSqrt⟩ ⟨0, yaw, 0⟩).GetUnitAxis
        ⟨Real.pi, Real.sin, Real.cos, invSqrt⟩ EAxis.Y =
      ⟨-Real.sin (yaw * (Real.pi / 180)), Real.cos (yaw * (Real.pi / 180)), 0⟩ := by
  have h1 : Real.sin (yaw * (Real.pi / 180)) * Real.sin (yaw * (Real.pi / 180)) +
      Real.cos (yaw * (Real.pi / 180)) * Real.cos (yaw * (Real.pi / 180)) = 1 := by
    have := Real.cos_sq_add_sin_sq (yaw * (Real.pi / 180))
    nlinarith [this]
  simp [FRotationMatrix.make, FRotationMatrix.GetUnitAxis, FRotationMatrix.GetScaledAxis,
    FVector.GetSafeNormal, FMath.DegreesToRadians, h1]

/-! ## Claim on the movement input -/

/-- C7. Over the real numbers, with the sine, cosine and pi of the engine being the
real ones: when `Controller` is non-null, `Move` issues exactly two movement
inputs, first `AddMovementInput(F, Y)` and then `AddMovementInput(R, X)`, where
`F = (cos yaw, sin yaw, 0)` and `R = (-sin yaw, cos yaw, 0)` (yaw taken in
degrees from the control rotation) are the X and Y unit axes of the rotation
matrix of `(0, yaw, 0)`; `F` and `R` are orthogonal unit vectors with zero
vertical component, and pitch and roll do not occur in them.  When `Controller`
is null, `Move` changes nothing. -/
theorem Move_spec (m : FMath ℝ) (hpi : m.PI = Real.pi) (hsin : m.Sin = Real.sin)
    (hcos : m.Cos = Real.cos) (w : World ℝ) (Value : FInputActionValue ℝ) :
    (∀ c : AController ℝ, w.Controller = some c →
      ∃ F R : FVector ℝ,
        F = ⟨Real.cos (c.ControlRotation.Yaw * (Real.pi / 180)),
              Real.sin (c.ControlRotation.Yaw * (Real.pi / 180)), 0⟩ ∧
        R = ⟨-Real.sin (c.ControlRotation.Yaw * (Real.pi / 180)),
              Real.cos (c.ControlRotation.Yaw * (Real.pi / 180)), 0⟩ ∧
        (FRotationMatrix.make m ⟨0, c.ControlRotation.Yaw, 0⟩).GetUnitAxis m EAxis.X = F ∧
        (FRotationMatrix.make m ⟨0, c.ControlRotation.Yaw, 0⟩).GetUnitAxis m EAxis.Y = R ∧
        Move m w Value =
          { w with
              Calls := w.Calls ++
                [EngineCall.AddMovementInput F Value.Value.Y,
                  EngineCall.AddMovementInput R Value.Value.X] } ∧
        F.Dot R = 0 ∧ F.Dot F = 1 ∧ R.Dot R = 1 ∧ F.Z = 0 ∧ R.Z = 0) ∧
    (w.Controller = none → Move m w Value = w) := by
  obtain ⟨pi, sin, cos, invSqrt⟩ := m
  simp only at hpi hsin hcos
  subst hpi hsin hcos
  constructor
  · intro c hc
    have hX := GetUnitAxis_X_yaw invSqrt c.ControlRotation.Yaw
    have hY := GetUnitAxis_Y_yaw invSqrt c.ControlRotation.Yaw
    have hsq := Real.cos_sq_add_sin_sq (c.ControlRotation.Yaw * (Real.pi / 180))
    refine ⟨_, _, rfl, rfl, hX, hY, ?_, ?_, ?_, ?_, rfl, rfl⟩
    · unfold Move
      simp only [hc, hX, hY, AddMovementInput, FInputActionValue.Get_FVector2D,
        List.append_assoc, List.singleton_append]
    · simp only [FVector.Dot]; ring
    · simp only [FVector.Dot]; nlinarith [hsq]
    · simp only [FVector.Dot]; nlinarith [hsq]
  · intro hc
    unfold Move
    simp only [hc]

/-- Witness of C7: control rotation (pitch 30, yaw 90, roll 45) and input (1, 2):
forward is the world Y axis, right the negated world X axis. -/
theorem Move_spec_witness :
    (Move ⟨Real.pi, Real.sin, Real.cos, fun x => x⟩ (moveWorld ℝ ⟨30, 90, 45⟩)
        ⟨⟨1, 2, 0⟩⟩).Calls =
      [EngineCall.AddMovementInput ⟨0, 1, 0⟩ 2, EngineCall.AddMovementInput ⟨-1, 0, 0⟩ 1] := by
  obtain ⟨F, R, hF, hR, _, _, hmove, _⟩ :=
    (Move_spec ⟨Real.pi, Real.sin, Real.cos, fun x => x⟩ rfl rfl rfl
      (moveWorld ℝ ⟨30, 90, 45⟩) ⟨⟨1, 2, 0⟩⟩).1 _ rfl
  have hq : (90 : ℝ) * (Real.pi / 180) = Real.pi / 2 := by ring
  rw [hmove, hF, hR]
  simp only [hq, Real.cos_pi_div_two, Real.sin_pi_div_two]
  rfl

end BasePlayerCharacter
